import Mathlib

/-!
Verification of the Jira→Lark reporting pipeline (formatter, interactive-card
builder, HTTP-client retry policy, and the user-id resolver merge step).

The Python sources are shallowly embedded: issue records are JSON-like values,
Python dictionaries are association lists (first match wins, as keys are unique
in the data produced by the tracker), machine floats used only as sort keys are
replaced by exact integers (microsecond epoch values) with an explicit
plus-infinity point, and fallible parsing returns Option.
-/

namespace JiraLark

/-- JSON-like value, the shape of tracker issue data.  Mirrors the untyped
nested mappings the Python code navigates. -/
inductive JVal where
  | jnull
  | jbool (b : Bool)
  | jint (n : Int)
  | jstr (s : String)
  | jarr (items : List JVal)
  | jobj (fields : List (String × JVal))

/-- A JSON object: a Python dict with string keys. -/
abbrev JObj := List (String × JVal)

/-- Python `d.get(k)` on a dict: first matching key, `None` when absent. -/
def jlookup : JObj → String → Option JVal
  | [], _ => none
  | (k, v) :: rest, key => if k = key then some v else jlookup rest key

/-- Python truthiness of a JSON value (`bool(v)`). -/
def JVal.truthy : JVal → Bool
  | .jnull => false
  | .jbool b => b
  | .jint n => n != 0
  | .jstr s => s != ""
  | .jarr l => !l.isEmpty
  | .jobj l => !l.isEmpty

/-- Python `str(v)` for the scalar values the formatter interpolates into
f-strings.  Composite values never reach a stringification site in the code
paths under verification; their Python repr is abbreviated. -/
def pyStr : JVal → String
  | .jnull => "None"
  | .jbool true => "True"
  | .jbool false => "False"
  | .jint n => toString n
  | .jstr s => s
  | .jarr _ => "<list>"
  | .jobj _ => "<dict>"

/-- Split a character list at every occurrence of `c`, like Python
`s.split(c)` (so adjacent separators yield empty pieces). -/
def splitCharsAux (c : Char) : List Char → List Char → List (List Char)
  | [], acc => [acc.reverse]
  | x :: xs, acc =>
    if x = c then acc.reverse :: splitCharsAux c xs []
    else splitCharsAux c xs (x :: acc)

/-- Python `s.split(sep)` for a single-character separator. -/
def pySplit (s : String) (c : Char) : List String :=
  (splitCharsAux c s.data []).map String.mk

/-- Python `s.strip()` restricted to the ASCII whitespace the data contains. -/
def pyStrip (s : String) : String :=
  String.mk (((s.data.dropWhile Char.isWhitespace).reverse.dropWhile Char.isWhitespace).reverse)

/-- Python `s.upper()` (the priority names under comparison are ASCII). -/
def pyUpper (s : String) : String :=
  String.mk (s.data.map Char.toUpper)

/-- Walk the dot-path segments from `formatter._get_by_path`: a dict segment is
`cur.get(p)`, a list takes its first element (consuming the segment, exactly as
the Python loop does), anything else becomes `None`; `None` at any point ends
the walk with the empty-string result (`none` here). -/
def getByPathWalk : JVal → List String → Option JVal
  | cur, [] => some cur
  | cur, p :: ps =>
    let nxt : Option JVal :=
      match cur with
      | .jobj fs => jlookup fs p
      | .jarr (x :: _) => some x
      | .jarr [] => none
      | _ => none
    match nxt with
    | none => none
    | some .jnull => none
    | some v => getByPathWalk v ps

/-- Terminal-dict rendering of `_get_by_path`:
`cur.get("displayName") or cur.get("name") or ""` with Python truthiness. -/
def displayOfObj (fs : JObj) : String :=
  match jlookup fs "displayName" with
  | some v =>
    if v.truthy then pyStr v
    else match jlookup fs "name" with
      | some w => if w.truthy then pyStr w else ""
      | none => ""
  | none =>
    match jlookup fs "name" with
    | some w => if w.truthy then pyStr w else ""
    | none => ""

/-- `formatter._get_by_path(fields, path)`. -/
def _get_by_path (fields : JObj) (path : String) : String :=
  if path = "" then ""
  else
    match getByPathWalk (.jobj fields) ((pySplit path '.').filter (· ≠ "")) with
    | none => ""
    | some (.jobj fs) => displayOfObj fs
    | some v => pyStr v

/-- `issue.get(key, "")` followed by f-string interpolation of the value. -/
def issue_get_str (issue : JObj) (key : String) : String :=
  match jlookup issue key with
  | some v => pyStr v
  | none => ""

/-- `issue.get("fields") or {}`.  A non-mapping value under `"fields"` would
raise in Python before producing output; such ill-typed records are modelled
as the empty mapping. -/
def issue_fields (issue : JObj) : JObj :=
  match jlookup issue "fields" with
  | some (.jobj fs) => fs
  | _ => []

/-- `(fields.get(outer) or {}).get(inner, "")` interpolated into an f-string. -/
def subfield_str (fields : JObj) (outer inner : String) : String :=
  match jlookup fields outer with
  | some (.jobj fs) =>
    (match jlookup fs inner with
     | some v => pyStr v
     | none => "")
  | _ => ""

/-- `formatter.format_text_report(issues)`.  The `lines` list is seeded with
the header, so the trailing `if lines else` sentinel branch of the source is
kept verbatim but can never fire. -/
def format_text_report (issues : List JObj) : String :=
  let count := issues.length
  let lines : List String :=
    ("今日 Jira 更新：共 " ++ toString count ++ " 条。") ::
      (issues.take 10).map (fun issue =>
        let key := issue_get_str issue "key"
        let fields := issue_fields issue
        let summary :=
          match jlookup fields "summary" with
          | some v => pyStr v
          | none => ""
        let status_name := subfield_str fields "status" "name"
        "- " ++ key ++ " [" ++ status_name ++ "] " ++ summary)
  if lines ≠ [] then String.intercalate "\n" lines else "今日暂无更新。"

/-- The per-issue resolved "QA" names of `_summarize_by_custom_field`:
`_get_by_path(fields, field_path) if field_path else ""`, then
`val or "未指派"`. -/
def resolved_qa_names (issues : List JObj) (field_path : String) : List String :=
  issues.map (fun issue =>
    let fields := issue_fields issue
    let val := if field_path ≠ "" then _get_by_path fields field_path else ""
    if val ≠ "" then val else "未指派")

/-- The distinct elements of a list in first-occurrence order — the key order
of a Python counting dict.  `seen` accumulates the keys already emitted. -/
def firstDedupAux (seen : List String) : List String → List String
  | [] => []
  | x :: xs =>
    if x ∈ seen then firstDedupAux seen xs
    else x :: firstDedupAux (x :: seen) xs

/-- First-occurrence deduplication. -/
def firstDedup (l : List String) : List String := firstDedupAux [] l

/-- Python string `<=`: lexicographic on code points. -/
def strLeChars : List Char → List Char → Bool
  | [], _ => true
  | _ :: _, [] => false
  | a :: as, b :: bs =>
    if a.toNat < b.toNat then true
    else if b.toNat < a.toNat then false
    else strLeChars as bs

/-- The sort key `lambda x: (-x[1], x[0])` of `_summarize_by_custom_field`
as a boolean total preorder: descending count, ties by ascending name. -/
def qaLe (a b : String × Nat) : Bool :=
  if b.2 < a.2 then true
  else if a.2 < b.2 then false
  else strLeChars a.1.data b.1.data

/-- `formatter._summarize_by_custom_field(issues, field_path)`, as the ordered
entry list of the returned dict.  Counting-dict key order is first occurrence;
Python `sorted` is stable, and insertion sort with the total preorder `qaLe`
is stable as well (an element is inserted before the first entry it ties
with, which is exactly the later-listed of the two), so the orders agree. -/
def _summarize_by_custom_field (issues : List JObj) (field_path : String) :
    List (String × Nat) :=
  ((firstDedup (resolved_qa_names issues field_path)).map
    (fun k => (k, (resolved_qa_names issues field_path).count k))).insertionSort
    (fun a b => qaLe a b = true)

/-- Inline element of a Lark "post" paragraph: `{"tag":"text",...}` or
`{"tag":"a",...}`. -/
inductive PostElem where
  | text (s : String)
  | link (text href : String)
  deriving DecidableEq

/-- Truthiness of an optional string parameter (`if x:` on `str | None`). -/
def optTruthy : Option String → Bool
  | none => false
  | some s => s != ""

/-- The string carried by an optional parameter once known truthy. -/
def optStr : Option String → String
  | none => ""
  | some s => s

/-- Python `s.rstrip("/")`. -/
def rstripSlash (s : String) : String :=
  String.mk (s.data.reverse.dropWhile (· = '/')).reverse

/-- Overview paragraph of `format_post_report`. -/
def post_overview_para (issues : List JObj) (count_emoji : String) : List PostElem :=
  [.text (count_emoji ++ " 【待更新数量 Pending update amount】：" ++
    toString issues.length ++ "\n")]

/-- The optional "经办人Top：" frequency paragraph of `format_post_report`
(appended exactly when the top-10 slice of the aggregation is non-empty). -/
def post_top_paras (issues : List JObj) (qa_field_path : String) :
    List (List PostElem) :=
  let top_qas := (_summarize_by_custom_field issues qa_field_path).take 10
  if top_qas ≠ [] then
    [[.text ("经办人Top：" ++
      String.intercalate ", " (top_qas.map (fun p => p.1 ++ ":" ++ toString p.2)))]]
  else []

/-- Key elements of a post row: hyperlink when a base URL is supplied and the
key is non-empty, otherwise plain text, with the row marker. -/
def post_key_elems (key : String) (base_url_for_links : Option String)
    (row_prefix_emoji : String) : List PostElem :=
  let pfx := if row_prefix_emoji ≠ "" then row_prefix_emoji ++ " " else "- "
  if optTruthy base_url_for_links && key != "" then
    [.text pfx,
     .link key (rstripSlash (optStr base_url_for_links) ++ "/browse/" ++ key)]
  else
    [.text (pfx ++ key)]

/-- QA segment of a post row: book-title brackets around a resolved value,
with the optional plain `@` suffix; the unassigned sentinel otherwise. -/
def post_qa_elems (qa_val : String) (at_qa_plain : Bool) : List PostElem :=
  if qa_val ≠ "" then
    [.text (" 《" ++ qa_val ++ "》")] ++
      (if at_qa_plain then [.text (" @" ++ qa_val)] else [])
  else
    [.text " 《未指派》"]

/-- Trailing priority/summary segment of a post row: appended only when its
stripped text is non-empty. -/
def post_tail_elems (priority summary : String) : List PostElem :=
  let pieces := [priority, summary].filter (· ≠ "")
  let tail := " " ++ String.intercalate " " pieces
  if pyStrip tail ≠ "" then [.text tail] else []

/-- One issue paragraph of `format_post_report`. -/
def post_issue_para (issue : JObj) (base_url_for_links : Option String)
    (qa_field_path env_field_path row_prefix_emoji : String)
    (at_qa_plain : Bool) : List PostElem :=
  let key := issue_get_str issue "key"
  let fields := issue_fields issue
  let qa_val := _get_by_path fields qa_field_path
  let priority := _get_by_path fields "priority.name"
  let env_val := _get_by_path fields env_field_path
  let summary :=
    match jlookup fields "summary" with
    | some v => pyStr v
    | none => ""
  post_key_elems key base_url_for_links row_prefix_emoji ++
    (if env_val ≠ "" then [PostElem.text (" " ++ env_val)] else []) ++
    post_qa_elems qa_val at_qa_plain ++
    post_tail_elems priority summary

/-- `formatter.format_post_report`: fixed title plus the ordered paragraph
list (overview, optional frequency line, one paragraph per issue among the
first `top_n`). -/
def format_post_report (issues : List JObj) (top_n : Nat)
    (base_url_for_links : Option String)
    (qa_field_path env_field_path row_prefix_emoji count_emoji : String)
    (at_qa_plain : Bool) : String × List (List PostElem) :=
  ("Pending Resolved Bugs(Daily Push)",
   post_overview_para issues count_emoji ::
     (post_top_paras issues qa_field_path ++
      (issues.take top_n).map (fun issue =>
        post_issue_para issue base_url_for_links qa_field_path env_field_path
          row_prefix_emoji at_qa_plain)))

/-- Numeric value of an ASCII digit. -/
def digitVal (c : Char) : Nat := c.toNat - 48

/-- A parsed `datetime`: calendar fields, microseconds, and the UTC offset in
microseconds when the timestamp was aware (`%z` — CPython keeps whole seconds
in `gmtoff` and the fraction in `gmtoff_fraction`, both folded into one
`timedelta`). -/
structure PyDateTime where
  year : Nat
  month : Nat
  day : Nat
  hour : Nat
  minute : Nat
  second : Nat
  micro : Nat
  tzOffsetMicros : Option Int
  deriving DecidableEq

/-- `%Y`: exactly four digits. -/
def parseYear : List Char → Option (Nat × List Char)
  | a :: b :: c :: d :: rest =>
    if a.isDigit && b.isDigit && c.isDigit && d.isDigit then
      some (digitVal a * 1000 + digitVal b * 100 + digitVal c * 10 + digitVal d, rest)
    else none
  | _ => none

/-- `%m`, alternation `1[0-2]|0[1-9]|[1-9]` committed in order.  A longer
alternative here always consumes a digit where the pattern next demands a
non-digit literal, so committing matches the regex with backtracking. -/
def parseMonth : List Char → Option (Nat × List Char)
  | a :: b :: rest =>
    if a = '1' && b.isDigit && digitVal b ≤ 2 then some (10 + digitVal b, rest)
    else if a = '0' && b.isDigit && 1 ≤ digitVal b then some (digitVal b, rest)
    else if a.isDigit && 1 ≤ digitVal a then some (digitVal a, b :: rest)
    else none
  | [a] => if a.isDigit && 1 ≤ digitVal a then some (digitVal a, []) else none
  | [] => none

/-- `%d`: `3[0-1]|[1-2]\d|0[1-9]|[1-9]| [1-9]` — the last alternative is the
space-padded day of ANSI C `%c`, so `" 8"` parses as day 8. -/
def parseDay : List Char → Option (Nat × List Char)
  | a :: b :: rest =>
    if a = '3' && (b = '0' || b = '1') then some (30 + digitVal b, rest)
    else if (a = '1' || a = '2') && b.isDigit then
      some (digitVal a * 10 + digitVal b, rest)
    else if a = '0' && b.isDigit && 1 ≤ digitVal b then some (digitVal b, rest)
    else if a.isDigit && 1 ≤ digitVal a then some (digitVal a, b :: rest)
    else if a = ' ' && b.isDigit && 1 ≤ digitVal b then some (digitVal b, rest)
    else none
  | [a] => if a.isDigit && 1 ≤ digitVal a then some (digitVal a, []) else none
  | [] => none

/-- `%H`: `2[0-3]|[0-1]\d|\d`. -/
def parseHour : List Char → Option (Nat × List Char)
  | a :: b :: rest =>
    if a = '2' && b.isDigit && digitVal b ≤ 3 then some (20 + digitVal b, rest)
    else if (a = '0' || a = '1') && b.isDigit then
      some (digitVal a * 10 + digitVal b, rest)
    else if a.isDigit then some (digitVal a, b :: rest)
    else none
  | [a] => if a.isDigit then some (digitVal a, []) else none
  | [] => none

/-- `%M`: `[0-5]\d|\d`. -/
def parseMinute : List Char → Option (Nat × List Char)
  | a :: b :: rest =>
    if a.isDigit && digitVal a ≤ 5 && b.isDigit then
      some (digitVal a * 10 + digitVal b, rest)
    else if a.isDigit then some (digitVal a, b :: rest)
    else none
  | [a] => if a.isDigit then some (digitVal a, []) else none
  | [] => none

/-- `%S`: `6[01]|[0-5]\d|\d` (leap-second forms match the regex and are then
rejected by the datetime constructor). -/
def parseSecond : List Char → Option (Nat × List Char)
  | a :: b :: rest =>
    if a = '6' && (b = '0' || b = '1') then some (60 + digitVal b, rest)
    else if a.isDigit && digitVal a ≤ 5 && b.isDigit then
      some (digitVal a * 10 + digitVal b, rest)
    else if a.isDigit then some (digitVal a, b :: rest)
    else none
  | [a] => if a.isDigit then some (digitVal a, []) else none
  | [] => none

/-- Exact-literal separator (`-`, `:`, `.` — unaffected by `IGNORECASE`). -/
def parseLit (c : Char) : List Char → Option (List Char)
  | x :: rest => if x = c then some rest else none
  | [] => none

/-- The literal `T` separator: strptime compiles its pattern with
`IGNORECASE`, so a lowercase `t` matches as well. -/
def parseSepT : List Char → Option (List Char)
  | x :: rest => if x = 'T' || x = 't' then some rest else none
  | [] => none

/-- Greedily take up to `k` leading digits. -/
def takeDigits : Nat → List Char → List Char × List Char
  | 0, l => ([], l)
  | _ + 1, [] => ([], [])
  | k + 1, x :: xs =>
    if x.isDigit then
      let (ds, rest) := takeDigits k xs
      (x :: ds, rest)
    else ([], x :: xs)

/-- Fold digits to a number. -/
def digitsToNat (ds : List Char) : Nat :=
  ds.foldl (fun acc c => acc * 10 + digitVal c) 0

/-- `%f`: one to six digits, right-padded to microseconds. -/
def parseFrac (l : List Char) : Option (Nat × List Char) :=
  let (ds, rest) := takeDigits 6 l
  if ds.length = 0 then none
  else some (digitsToNat ds * 10 ^ (6 - ds.length), rest)

/-- The optional seconds-and-fraction tail of `%z`: `(:?[0-5]\d(\.\d{1,6})?)?`.
The colon before the seconds must mirror the colon between hours and minutes:
after the regex, CPython normalizes the match and raises for a colon it does
not expect (`Inconsistent use of :`) or fails `int()` on a colon it kept, so a
mismatched group always fails the whole pattern — exactly what an unconsumed
group followed by the full-match check produces here.  Returns seconds,
fractional microseconds, and the remainder. -/
def parseTzSecondsCore : List Char → Option (Nat × Nat × List Char)
  | e :: f :: r =>
    if e.isDigit && digitVal e ≤ 5 && f.isDigit then
      some (digitVal e * 10 + digitVal f,
        match r with
        | '.' :: r2 =>
          (match parseFrac r2 with
           | some (frac, r3) => (frac, r3)
           | none => (0, '.' :: r2))
        | r2 => (0, r2))
    else none
  | _ => none

/-- Dispatch on the colon before the seconds; a group that is not taken leaves
its characters in the remainder (dooming the full match). -/
def parseTzSeconds (usedColon : Bool) (l : List Char) :
    Nat × Nat × List Char :=
  match usedColon, l with
  | true, ':' :: r =>
    (match parseTzSecondsCore r with
     | some res => res
     | none => (0, 0, l))
  | true, _ => (0, 0, l)
  | false, ':' :: _ => (0, 0, l)
  | false, _ =>
    (match parseTzSecondsCore l with
     | some res => res
     | none => (0, 0, l))

/-- `%z`: `[+-]\d\d:?[0-5]\d(:?[0-5]\d(\.\d{1,6})?)?|(?-i:Z)` (the `Z`
alternative is explicitly case-sensitive even under `IGNORECASE`), yielding
the offset in microseconds.  The offset magnitude must be strictly below 24
hours: `datetime.timezone` raises otherwise and the pattern fails. -/
def parseTz (l : List Char) : Option (Int × List Char) :=
  match l with
  | 'Z' :: rest => some (0, rest)
  | s :: rest =>
    if s = '+' || s = '-' then
      match rest with
      | a :: b :: rest2 =>
        if a.isDigit && b.isDigit then
          let hh := digitVal a * 10 + digitVal b
          let usedColon : Bool := match rest2 with
            | ':' :: _ => true
            | _ => false
          let rest3 := match rest2 with
            | ':' :: r => r
            | r => r
          match rest3 with
          | c :: d :: rest4 =>
            if c.isDigit && digitVal c ≤ 5 && d.isDigit then
              let mm := digitVal c * 10 + digitVal d
              match parseTzSeconds usedColon rest4 with
              | (ss, frac, rest5) =>
                let totalMicros : Int :=
                  ((hh * 3600 + mm * 60 + ss) * 1000000 + frac : Nat)
                if totalMicros < 86400 * 1000000 then
                  some ((if s = '-' then -totalMicros else totalMicros), rest5)
                else none
            else none
          | _ => none
        else none
      | _ => none
    else none
  | [] => none

/-- Days in a month, with the Gregorian leap rule (what the `datetime`
constructor validates against). -/
def daysInMonth (y m : Nat) : Nat :=
  if m = 2 then
    if y % 4 = 0 && (y % 100 ≠ 0 || y % 400 = 0) then 29 else 28
  else if m = 4 || m = 6 || m = 9 || m = 11 then 30
  else 31

/-- The `datetime` constructor checks performed after the regex match: year in
range, day within the month, second at most 59. -/
def mkDT (y m d h mi s micro : Nat) (tz : Option Int) : Option PyDateTime :=
  if 1 ≤ y && 1 ≤ d && d ≤ daysInMonth y m && s ≤ 59 then
    some ⟨y, m, d, h, mi, s, micro, tz⟩
  else none

/-- The prefix `%Y-%m-%dT%H:%M:%S` shared by all four patterns. -/
def parseCommon (l : List Char) :
    Option ((Nat × Nat × Nat × Nat × Nat × Nat) × List Char) := do
  let (y, r1) ← parseYear l
  let r2 ← parseLit '-' r1
  let (mo, r3) ← parseMonth r2
  let r4 ← parseLit '-' r3
  let (d, r5) ← parseDay r4
  let r6 ← parseSepT r5
  let (h, r7) ← parseHour r6
  let r8 ← parseLit ':' r7
  let (mi, r9) ← parseMinute r8
  let r10 ← parseLit ':' r9
  let (s, r11) ← parseSecond r10
  some ((y, mo, d, h, mi, s), r11)

/-- `datetime.strptime(s, "%Y-%m-%dT%H:%M:%S.%f%z")`. -/
def strptime1 (s : String) : Option PyDateTime := do
  let ((y, mo, d, h, mi, sec), r) ← parseCommon s.data
  let r2 ← parseLit '.' r
  let (micro, r3) ← parseFrac r2
  let (off, r4) ← parseTz r3
  if r4 = [] then mkDT y mo d h mi sec micro (some off) else none

/-- `datetime.strptime(s, "%Y-%m-%dT%H:%M:%S%z")`. -/
def strptime2 (s : String) : Option PyDateTime := do
  let ((y, mo, d, h, mi, sec), r) ← parseCommon s.data
  let (off, r2) ← parseTz r
  if r2 = [] then mkDT y mo d h mi sec 0 (some off) else none

/-- `datetime.strptime(s, "%Y-%m-%dT%H:%M:%S.%f")`. -/
def strptime3 (s : String) : Option PyDateTime := do
  let ((y, mo, d, h, mi, sec), r) ← parseCommon s.data
  let r2 ← parseLit '.' r
  let (micro, r3) ← parseFrac r2
  if r3 = [] then mkDT y mo d h mi sec micro none else none

/-- `datetime.strptime(s, "%Y-%m-%dT%H:%M:%S")`. -/
def strptime4 (s : String) : Option PyDateTime := do
  let ((y, mo, d, h, mi, sec), r) ← parseCommon s.data
  if r = [] then mkDT y mo d h mi sec 0 none else none

/-- Days since 1970-01-01 of a proleptic-Gregorian civil date (the classic
era-based algorithm; `/` is truncating division exactly as in the C source it
derives from, and all intermediate operands it divides are non-negative). -/
def daysFromCivil (y m d : Int) : Int :=
  let y2 := if m ≤ 2 then y - 1 else y
  let era := (if 0 ≤ y2 then y2 else y2 - 399) / 400
  let yoe := y2 - era * 400
  let mp := (m + 9) % 12
  let doy := (153 * mp + 2) / 5 + d - 1
  let doe := yoe * 365 + yoe / 4 - yoe / 100 + doy
  era * 146097 + doe - 719468

/-- Inverse of `daysFromCivil`. -/
def civilFromDays (z : Int) : Int × Int × Int :=
  let z2 := z + 719468
  let era := (if 0 ≤ z2 then z2 else z2 - 146096) / 146097
  let doe := z2 - era * 146097
  let yoe := (doe - doe / 1460 + doe / 36524 - doe / 146096) / 365
  let y := yoe + era * 400
  let doy := doe - (365 * yoe + yoe / 4 - yoe / 100)
  let mp := (5 * doy + 2) / 153
  let d := doy - (153 * mp + 2) / 5 + 1
  let m := mp + (if mp < 10 then 3 else -9)
  (if m ≤ 2 then y + 1 else y, m, d)

/-- UTC epoch of a parsed datetime in microseconds; `offsetMicros` is the UTC
offset in effect, in microseconds (the `%z` offset for aware values, the
localizing offset for naive ones). -/
def dtEpochMicros (dt : PyDateTime) (offsetMicros : Int) : Int :=
  ((daysFromCivil dt.year dt.month dt.day) * 86400 +
    dt.hour * 3600 + dt.minute * 60 + dt.second) * 1000000 + dt.micro -
    offsetMicros

/-- Modelled from the spec: the timezone database is an opaque external
dependency (spec §1, §6); the zones the spec exercises are modelled as fixed
UTC offsets.  Asia/Shanghai has observed a constant UTC+8 with no DST since
1991, so this is exact for every timestamp concerned.  An unresolvable name is
`none` (the code swallows the resolution error and skips conversion). -/
def pytz_offset : String → Option Int
  | "Asia/Shanghai" => some 28800
  | "UTC" => some 0
  | _ => none

/-- Zero-pad to two digits. -/
def pad2 (n : Int) : String :=
  if n < 10 then "0" ++ toString n else toString n

/-- `%Y` in `strftime`: this platform (glibc) renders the year unpadded, so
year 1 prints as `1`. -/
def fmtYear (n : Int) : String := toString n

/-- `dt.strftime("%Y-%m-%d %H:%M:%S")` of the wall-clock time at `wallMicros`
microseconds past the epoch of the rendered zone; `none` when the wall time
leaves the `datetime` year range 1..9999 (`astimezone` raises OverflowError
there, failing the pattern). -/
def renderAtWall (wallMicros : Int) : Option String :=
  let wallSec := Int.ediv wallMicros 1000000
  let days := Int.ediv wallSec 86400
  let rem := Int.emod wallSec 86400
  let (y, m, d) := civilFromDays days
  if 1 ≤ y && y ≤ 9999 then
    some (fmtYear y ++ "-" ++ pad2 m ++ "-" ++ pad2 d ++ " " ++
      pad2 (Int.ediv rem 3600) ++ ":" ++ pad2 (Int.ediv (Int.emod rem 3600) 60) ++
      ":" ++ pad2 (Int.emod rem 60))
  else none

/-- Render the calendar fields of a datetime verbatim (no conversion). -/
def renderSelf (dt : PyDateTime) : String :=
  fmtYear dt.year ++ "-" ++ pad2 dt.month ++ "-" ++ pad2 dt.day ++ " " ++
    pad2 dt.hour ++ ":" ++ pad2 dt.minute ++ ":" ++ pad2 dt.second

/-- Aware branch of `_format_created`: `dt.astimezone(target)` when the target
zone resolved, else the datetime is rendered as parsed.  `none` models the
OverflowError of an out-of-range conversion, which fails this pattern. -/
def renderAware (dt : PyDateTime) (target : Option Int) : Option String :=
  match target with
  | some tgt =>
    renderAtWall (dtEpochMicros dt (dt.tzOffsetMicros.getD 0) + tgt * 1000000)
  | none => some (renderSelf dt)

/-- Naive branch of `_format_created`: `pytz.utc.localize(naive)` then
`astimezone(target)` when the target zone resolved, else rendered as parsed. -/
def renderNaive (dt : PyDateTime) (target : Option Int) : Option String :=
  match target with
  | some tgt => renderAtWall (dtEpochMicros dt 0 + tgt * 1000000)
  | none => some (renderSelf dt)

/-- `card_main._format_created(created, tz_name)`: the four patterns tried in
order, rendering `YYYY-MM-DD HH:MM:SS` on success (converting to the target
zone when it resolves; naive values assumed UTC), the input unchanged when all
four fail, and the empty string for empty input.  A conversion overflow
(`renderAware`/`renderNaive` = `none`) makes the pattern fail; a string one
pattern parses is rejected by every later pattern (an offset suffix fails the
naive patterns, a fraction fails the fraction-less ones), so the loop then
falls through to returning the input unchanged. -/
def _format_created (created : String) (tz_name : Option String) : String :=
  if created = "" then ""
  else
    let target : Option Int :=
      match tz_name with
      | none => none
      | some name => if name = "" then none else pytz_offset name
    match strptime1 created with
    | some dt => (renderAware dt target).getD created
    | none =>
      match strptime2 created with
      | some dt => (renderAware dt target).getD created
      | none =>
        match strptime3 created with
        | some dt => (renderNaive dt target).getD created
        | none =>
          match strptime4 created with
          | some dt => (renderNaive dt target).getD created
          | none => created

/-- A word character for the `\b` boundaries of `\bP(\d)\b` (the ASCII core of
the Unicode class, which coincides on the priority names the tracker emits). -/
def isWordChar (c : Char) : Bool := c.isAlphanum || c = '_'

/-- Leftmost match of `re.search(r"\bP(\d)\b", n)`: scan every start position
left to right with the preceding character as boundary context. -/
def pdigitSearchAux : Option Char → List Char → Option Nat
  | _, [] => none
  | prev, c :: rest =>
    if c = 'P' && (match prev with | none => true | some q => !isWordChar q) then
      match rest with
      | d :: rest2 =>
        if d.isDigit &&
            (match rest2 with | [] => true | e :: _ => !isWordChar e) then
          some (digitVal d)
        else pdigitSearchAux (some c) rest
      | [] => pdigitSearchAux (some c) rest
    else pdigitSearchAux (some c) rest

/-- `card_main._priority_rank(name)`: exact `P0..P3` token after
strip+uppercase, else a standalone `P<digit>` token, else the English
synonyms, else 999. -/
def _priority_rank (name : Option String) : Nat :=
  match name with
  | none => 999
  | some s =>
    if s = "" then 999
    else
      let n := pyUpper (pyStrip s)
      if n = "P0" then 0
      else if n = "P1" then 1
      else if n = "P2" then 2
      else if n = "P3" then 3
      else
        match pdigitSearchAux none n.data with
        | some v => v
        | none =>
          if n = "HIGHEST" then 0
          else if n = "HIGH" then 1
          else if n = "MEDIUM" then 2
          else if n = "LOW" then 3
          else 999

/-- The four-pattern parse of `_created_sort_val` on a non-empty string:
`dt.timestamp()` in exact microseconds (aware values use their own offset,
naive ones are localized to UTC first), `none` (plus infinity) when no pattern
matches. -/
def created_sort_val_core (s : String) : Option Int :=
  match strptime1 s with
  | some dt => some (dtEpochMicros dt (dt.tzOffsetMicros.getD 0))
  | none =>
    match strptime2 s with
    | some dt => some (dtEpochMicros dt (dt.tzOffsetMicros.getD 0))
    | none =>
      match strptime3 s with
      | some dt => some (dtEpochMicros dt 0)
      | none =>
        match strptime4 s with
        | some dt => some (dtEpochMicros dt 0)
        | none => none

/-- `card_main._created_sort_val(created)`; `none` is the `float("inf")`
sentinel that sorts last. -/
def _created_sort_val (created : Option String) : Option Int :=
  match created with
  | none => none
  | some s => if s = "" then none else created_sort_val_core s

/-- UTF-8 encoding of one code point. -/
def utf8Bytes (c : Char) : List Nat :=
  let n := c.toNat
  if n < 0x80 then [n]
  else if n < 0x800 then [0xC0 + n / 0x40, 0x80 + n % 0x40]
  else if n < 0x10000 then
    [0xE0 + n / 0x1000, 0x80 + (n / 0x40) % 0x40, 0x80 + n % 0x40]
  else
    [0xF0 + n / 0x40000, 0x80 + (n / 0x1000) % 0x40, 0x80 + (n / 0x40) % 0x40,
     0x80 + n % 0x40]

/-- The always-safe bytes of `urllib.parse.quote`: ASCII letters, digits, and
`_.-~`. -/
def isUrlSafeByte (b : Nat) : Bool :=
  (65 ≤ b && b ≤ 90) || (97 ≤ b && b ≤ 122) || (48 ≤ b && b ≤ 57) ||
    b = 95 || b = 46 || b = 45 || b = 126

/-- Uppercase hex digit. -/
def hexDigitU (n : Nat) : Char :=
  if n < 10 then Char.ofNat (48 + n) else Char.ofNat (55 + n)

/-- Percent-encode one byte as `urllib.parse.quote_plus` does: safe bytes pass
through, a space becomes `+`, everything else becomes `%XX`.  (In urllib this
arises from `quote(s, safe=" ")` followed by replacing spaces with `+` when
the input contains a space; the net byte-level map is the same either way.) -/
def quotePlusByte (b : Nat) : List Char :=
  if isUrlSafeByte b then [Char.ofNat b]
  else if b = 32 then ['+']
  else ['%', hexDigitU (b / 16), hexDigitU (b % 16)]

/-- `urllib.parse.quote_plus(s)` with the default empty `safe` set. -/
def quote_plus (s : String) : String :=
  String.mk (((s.data.map utf8Bytes).flatten.map quotePlusByte).flatten)

/-- One element of an interactive card: a `lark_md` div, a horizontal rule, a
fields row (`is_short` flag and `lark_md` content per column), or a
`plain_text` note. -/
inductive CardElem where
  | div (content : String)
  | hr
  | fieldsRow (cols : List (Bool × String))
  | note (content : String)
  deriving DecidableEq

/-- An interactive card: fixed wide-screen config, a plain-text header title,
and the ordered element list. -/
structure Card where
  header_title : String
  elements : List CardElem
  deriving DecidableEq

/-- The raw `created` argument passed on by the card builder:
`fields.get("created", "")` rendered to the string the datetime code sees. -/
def createdArg (fields : JObj) : String :=
  match jlookup fields "created" with
  | some v => pyStr v
  | none => ""

/-- The created half of the card sort key, from
`_created_sort_val((i.get("fields") or {}).get("created", ""))`: a falsy raw
value is plus infinity, otherwise the string rendering is parsed. -/
def card_created_key (fields : JObj) : Option Int :=
  let v := (jlookup fields "created").getD (.jstr "")
  if v.truthy then created_sort_val_core (pyStr v) else none

/-- The priority half of the card sort key. -/
def card_rank (issue : JObj) : Nat :=
  _priority_rank (some (_get_by_path (issue_fields issue) "priority.name"))

/-- Ordering on the `float` sort values with `none` as plus infinity. -/
def cmpCreatedLe : Option Int → Option Int → Bool
  | _, none => true
  | none, some _ => false
  | some a, some b => a ≤ b

/-- The ascending lexicographic order on the Python key tuple
`(_priority_rank(...), _created_sort_val(...))`. -/
def card_key_le (a b : JObj) : Bool :=
  if card_rank a < card_rank b then true
  else if card_rank b < card_rank a then false
  else cmpCreatedLe (card_created_key (issue_fields a)) (card_created_key (issue_fields b))

/-- `sorted(issues, key=...)` of the card builder: Python sorting is stable,
and insertion sort with the total preorder `card_key_le` is stable as well,
so the orders agree. -/
def card_issues_sorted (issues : List JObj) : List JObj :=
  issues.insertionSort (fun a b => card_key_le a b = true)

/-- The truncated issue list the card renders. -/
def card_shown (issues : List JObj) (show_limit : Nat) : List JObj :=
  (card_issues_sorted issues).take show_limit

/-- `hidden_count = max(0, len(issues_sorted) - len(show_items))`; the Python
value is never negative, which truncated subtraction reflects. -/
def card_hidden_count (issues : List JObj) (show_limit : Nat) : Nat :=
  (card_issues_sorted issues).length - (card_shown issues show_limit).length

/-- The optional "🏆 TOP QA PIC" element of the card. -/
def card_top_elems (issues : List JObj) (qa_field_path : String) : List CardElem :=
  let top_qas := (_summarize_by_custom_field issues qa_field_path).take 10
  if top_qas ≠ [] then
    [.div ("🏆 TOP QA PIC：" ++
      String.intercalate ", " (top_qas.map (fun p => p.1 ++ ":" ++ toString p.2)))]
  else []

/-- The per-issue block of `build_interactive_card`, one of the three layouts. -/
def card_issue_block (issue : JObj) (base_url_for_links : Option String)
    (qa_field_path env_field_path row_prefix_emoji layout : String)
    (env_emoji qa_emoji priority_emoji summary_emoji link_emoji : String)
    (target_tz : Option String) : List CardElem :=
  let key := issue_get_str issue "key"
  let fields := issue_fields issue
  let qa_val0 := _get_by_path fields qa_field_path
  let qa_val := if qa_val0 ≠ "" then qa_val0 else "未指派"
  let env_val := _get_by_path fields env_field_path
  let priority := _get_by_path fields "priority.name"
  let summary :=
    match jlookup fields "summary" with
    | some v => pyStr v
    | none => ""
  let created_fmt := _format_created (createdArg fields) target_tz
  let key_md :=
    if optTruthy base_url_for_links && key != "" then
      row_prefix_emoji ++ " **Key**: " ++ link_emoji ++ " [" ++ key ++ "](" ++
        rstripSlash (optStr base_url_for_links) ++ "/browse/" ++ key ++ ")"
    else
      row_prefix_emoji ++ " **Key**: " ++ key
  let left_lines :=
    [key_md] ++ (if env_val ≠ "" then [env_emoji ++ " **Env**: " ++ env_val] else [])
  let right_lines :=
    [qa_emoji ++ " **QAs**: " ++ qa_val] ++
      (if priority ≠ "" then [priority_emoji ++ " **Priority**: " ++ priority] else [])
  if layout = "single_column" then
    let lines := left_lines ++ right_lines ++
      (if created_fmt ≠ "" then ["🕒 **Created**: " ++ created_fmt] else []) ++
      (if summary ≠ "" then [summary_emoji ++ " " ++ summary] else [])
    [.div (String.intercalate "\n" lines)]
  else if layout = "three_columns" then
    [CardElem.fieldsRow
      [(true, String.intercalate "\n" left_lines),
       (true, String.intercalate "\n" right_lines),
       (true, "🕒 **Created**: " ++ created_fmt)]] ++
      (if summary ≠ "" then [CardElem.note (summary_emoji ++ " " ++ summary)] else [])
  else
    [CardElem.fieldsRow
      [(true, String.intercalate "\n" left_lines),
       (true, String.intercalate "\n"
         (right_lines ++
           (if created_fmt ≠ "" then ["🕒 **Created**: " ++ created_fmt] else [])))]] ++
      (if summary ≠ "" then [CardElem.note (summary_emoji ++ " " ++ summary)] else [])

/-- The ", [View All](…)" suffix added to the collapse tip exactly when both
the base URL and the query are truthy (`if jira_base_url and jql`). -/
def card_view_all (jira_base_url jql : Option String) : String :=
  if optTruthy jira_base_url && optTruthy jql then
    ", [View All](" ++ rstripSlash (optStr jira_base_url) ++
      "/issues/?jql=" ++ quote_plus (optStr jql) ++ ")"
  else ""

/-- The collapse notice appended when issues were hidden: a rule plus a tip
line stating the hidden count, with the optional "View All" hyperlink. -/
def card_tail_elems (hidden_count : Nat) (jira_base_url jql : Option String) :
    List CardElem :=
  if hidden_count > 0 then
    [CardElem.hr,
     CardElem.div ("ℹ️ " ++ ("Remaining " ++ toString hidden_count ++
       " items collapsed" ++ card_view_all jira_base_url jql))]
  else []

/-- `card_main.build_interactive_card`. -/
def build_interactive_card (issues : List JObj) (title : String)
    (base_url_for_links : Option String)
    (qa_field_path env_field_path count_emoji row_prefix_emoji : String)
    (show_limit : Nat) (jira_base_url jql : Option String) (layout : String)
    (env_emoji qa_emoji priority_emoji summary_emoji link_emoji : String)
    (target_tz : Option String) : Card :=
  { header_title := title,
    elements :=
      [CardElem.div (count_emoji ++ " 【待更新数量 Pending update amount】：" ++
        toString issues.length)] ++
      card_top_elems issues qa_field_path ++
      [CardElem.hr] ++
      ((card_shown issues show_limit).map (fun issue =>
        card_issue_block issue base_url_for_links qa_field_path env_field_path
          row_prefix_emoji layout env_emoji qa_emoji priority_emoji summary_emoji
          link_emoji target_tz)).flatten ++
      card_tail_elems (card_hidden_count issues show_limit) jira_base_url jql }

/-- Final state of one client retry loop: the returned value if an attempt
succeeded, the last exception seen, the number of attempts made, and the
sleeps performed (in seconds). -/
structure LoopState (ε α : Type) where
  success : Option α
  lastExc : Option ε
  attempts : Nat
  sleeps : List ℚ
  deriving DecidableEq

/-- `for attempt in range(1, retries + 1)` with the shared body of
`JiraClient.search_issues`, `JiraClient.list_fields` and `LarkClient._post`:
the remaining attempt numbers drive the loop; try the transport, return on
success, record the exception and sleep `backoff * attempt` (except after the
last attempt) on failure. -/
def retry_go (transport : Nat → Except ε α) (retries : Nat) (backoff : ℚ) :
    List Nat → Option ε → Nat → List ℚ → LoopState ε α
  | [], lastExc, made, sleeps => ⟨none, lastExc, made, sleeps⟩
  | attempt :: restAttempts, lastExc, made, sleeps =>
    match transport attempt with
    | .ok a => ⟨some a, lastExc, made + 1, sleeps⟩
    | .error e =>
      retry_go transport retries backoff restAttempts (some e) (made + 1)
        (if attempt < retries then sleeps ++ [backoff * attempt] else sleeps)

/-- The whole retry loop over attempts `1, ..., retries`. -/
def retry_loop (transport : Nat → Except ε α) (retries : Nat) (backoff : ℚ) :
    LoopState ε α :=
  retry_go transport retries backoff (List.range' 1 retries) none 0 []

/-- What a client call surfaces after the loop. -/
inductive RetryOutcome (ε α : Type) where
  | returned (a : α)
  | raised (e : ε)
  | invalidRaise
  deriving DecidableEq

/-- `JiraClient.search_issues` / `list_fields` after the loop: a success
returns, `if last_exc: raise last_exc`, and a loop that never ran falls
through to `return default` (the empty list in the source). -/
def jira_request (transport : Nat → Except ε α) (default : α) (retries : Nat) :
    RetryOutcome ε α :=
  let st := retry_loop transport retries 1
  match st.success with
  | some a => .returned a
  | none =>
    match st.lastExc with
    | some e => .raised e
    | none => .returned default

/-- `LarkClient._post` after the loop: a success returns, otherwise
`raise last_exc` — which raises the recorded failure, or (when the loop never
ran because `retries < 1`) attempts to raise `None`, itself an error. -/
def lark_post (transport : Nat → Except ε α) (retries : Nat) (backoff : ℚ) :
    RetryOutcome ε α :=
  let st := retry_loop transport retries backoff
  match st.success with
  | some a => .returned a
  | none =>
    match st.lastExc with
    | some e => .raised e
    | none => .invalidRaise

/-- `merged.update(mapping)` of the resolver tool (`fetch_open_ids.main`):
values of existing keys are overwritten in place, unseen keys are appended in
the order of the new mapping. -/
def resolver_merge (old new : List (String × String)) : List (String × String) :=
  old.map (fun kv => (kv.1, ((new.lookup kv.1).getD kv.2))) ++
    new.filter (fun kv => kv.1 ∉ old.map Prod.fst)

/-! ## Theorems -/

/-- C1: the claim says `format_text_report([])` returns the no-updates
sentinel "今日暂无更新。".  It does not: `lines` is seeded with the count
header before the guard `if lines else` is evaluated, so the sentinel branch
is unreachable and the empty list yields the zero-count header instead.  This
theorem evaluates the code at the failing input. -/
theorem C1_format_text_report_empty :
    format_text_report [] = "今日 Jira 更新：共 0 条。" ∧
    format_text_report [] ≠ "今日暂无更新。" := by
  constructor
  · rfl
  · decide

/-- A one-issue list whose QA path resolves to the empty value everywhere. -/
def c2Issues : List JObj := [[("fields", JVal.jobj [])]]

/-- Does a post element carry the frequency-line text? -/
def isTopLineElem (e : PostElem) : Bool :=
  match e with
  | .text s => "经办人Top：".data.isPrefixOf s.data
  | .link _ _ => false

/-- C2 counterexample: a non-empty issue list in which every QA value is
empty, yet `format_post_report` does include the "经办人Top：" frequency
paragraph (the aggregator substitutes the 未指派 sentinel before counting, so
the aggregation is never empty for a non-empty issue list). -/
theorem C2_cex_top_line_present :
    c2Issues ≠ [] ∧
    c2Issues.all
      (fun issue => _get_by_path (issue_fields issue) "assignee.displayName" == "") = true ∧
    ((format_post_report c2Issues 10 none "assignee.displayName" "" "🔹" "📌" false).2.map
      (fun para => para.any isTopLineElem)).contains true = true := by
  refine ⟨by unfold c2Issues; simp, by decide, by decide⟩

/-- Helper: the aggregation of `_summarize_by_custom_field` is non-empty
exactly on a non-empty issue list (every issue contributes a key, the empty
value becoming 未指派). -/
theorem summarize_ne_nil (issues : List JObj) (p : String) :
    _summarize_by_custom_field issues p ≠ [] ↔ issues ≠ [] := by
  unfold _summarize_by_custom_field
  cases issues with
  | nil => simp [resolved_qa_names, firstDedup, firstDedupAux]
  | cons i rest =>
    constructor
    · intro _ h; exact absurd h (by simp)
    · intro _ hnil
      have hperm := List.perm_insertionSort (fun a b => qaLe a b = true)
        ((firstDedup (resolved_qa_names (i :: rest) p)).map
          (fun k => (k, (resolved_qa_names (i :: rest) p).count k)))
      rw [hnil] at hperm
      have hlen := hperm.length_eq
      simp [resolved_qa_names, firstDedup, firstDedupAux] at hlen

/-- C2 amended: the frequency paragraph is appended if and only if the issue
list is non-empty — not "iff some QA value resolves non-empty", because
`_summarize_by_custom_field` counts empty values under the 未指派 sentinel.
The first conjunct fixes where the paragraph sits in the returned content. -/
theorem C2_top_line_iff_nonempty (issues : List JObj) (top_n : Nat)
    (b : Option String) (qa env pfx cnt : String) (at_plain : Bool) :
    (format_post_report issues top_n b qa env pfx cnt at_plain).2 =
      post_overview_para issues cnt ::
        (post_top_paras issues qa ++
          (issues.take top_n).map (fun issue =>
            post_issue_para issue b qa env pfx at_plain)) ∧
    (post_top_paras issues qa ≠ [] ↔ issues ≠ []) := by
  refine ⟨rfl, ?_⟩
  unfold post_top_paras
  rcases eq_or_ne issues [] with h | h
  · subst h
    simp [_summarize_by_custom_field, resolved_qa_names, firstDedup]
  · have hsum : _summarize_by_custom_field issues qa ≠ [] :=
      (summarize_ne_nil issues qa).mpr h
    have htake : (_summarize_by_custom_field issues qa).take 10 ≠ [] := by
      rw [Ne, List.take_eq_nil_iff]
      push_neg
      exact ⟨by omega, hsum⟩
    simp [htake, h]

/-- C10: in `format_post_report`, an issue whose QA value resolves empty gets
the literal 《未指派》 segment and no plain-text `@` mention element, even when
`at_qa_plain` is set: the whole QA block of its paragraph is exactly the
sentinel text element. -/
theorem C10_empty_qa_no_mention (issue : JObj) (b : Option String)
    (qa env pfx : String) (at_plain : Bool)
    (h : _get_by_path (issue_fields issue) qa = "") :
    post_qa_elems (_get_by_path (issue_fields issue) qa) at_plain =
      [PostElem.text " 《未指派》"] ∧
    PostElem.text " 《未指派》" ∈ post_issue_para issue b qa env pfx at_plain := by
  have h1 : post_qa_elems (_get_by_path (issue_fields issue) qa) at_plain =
      [PostElem.text " 《未指派》"] := by
    rw [h]; simp [post_qa_elems]
  refine ⟨h1, ?_⟩
  unfold post_issue_para
  simp [h1]

/-- C10 witness: a fields-less issue with `at_qa_plain = true`. -/
theorem C10_witness :
    post_qa_elems (_get_by_path (issue_fields [("fields", JVal.jobj [])])
        "assignee.displayName") true = [PostElem.text " 《未指派》"] ∧
    PostElem.text " 《未指派》" ∈
      post_issue_para [("fields", JVal.jobj [])] none "assignee.displayName" ""
        "🔹" true :=
  C10_empty_qa_no_mention [("fields", JVal.jobj [])] none "assignee.displayName"
    "" "🔹" true (by decide)

/-- C6: path resolution — the empty path and any walk that dies (absent
segment or explicit null) give the empty string; a list segment is resolved
through the first element; a terminal nested object renders through
`displayName` then `name` (Python truthiness) then empty; scalar terminals are
stringified.  Includes the three spec examples and a list-segment example. -/
theorem C6_get_by_path_spec :
    (∀ fields : JObj, _get_by_path fields "" = "") ∧
    _get_by_path [("assignee", JVal.jobj [("displayName", JVal.jstr "Alice")])]
      "assignee.displayName" = "Alice" ∧
    _get_by_path [] "assignee.displayName" = "" ∧
    _get_by_path [("a", JVal.jobj [("b", JVal.jnull)])] "a.b.c" = "" ∧
    _get_by_path [("items", JVal.jarr [JVal.jobj [("name", JVal.jstr "N")]])]
      "items.x" = "N" ∧
    (∀ (fields : JObj) (path : String), path ≠ "" →
      getByPathWalk (JVal.jobj fields) ((pySplit path '.').filter (· ≠ "")) = none →
      _get_by_path fields path = "") ∧
    (∀ (fields : JObj) (path : String) (fs : JObj), path ≠ "" →
      getByPathWalk (JVal.jobj fields) ((pySplit path '.').filter (· ≠ "")) =
        some (JVal.jobj fs) →
      _get_by_path fields path = displayOfObj fs) ∧
    (∀ (fields : JObj) (path : String) (t : String), path ≠ "" →
      getByPathWalk (JVal.jobj fields) ((pySplit path '.').filter (· ≠ "")) =
        some (JVal.jstr t) →
      _get_by_path fields path = t) ∧
    (∀ (fields : JObj) (path : String) (n : Int), path ≠ "" →
      getByPathWalk (JVal.jobj fields) ((pySplit path '.').filter (· ≠ "")) =
        some (JVal.jint n) →
      _get_by_path fields path = toString n) := by
  refine ⟨fun fields => rfl, by decide, by decide, by decide, by decide,
    ?_, ?_, ?_, ?_⟩
  · intro fields path hp hw
    unfold _get_by_path
    rw [if_neg hp, hw]
  · intro fields path fs hp hw
    unfold _get_by_path
    rw [if_neg hp, hw]
  · intro fields path t hp hw
    unfold _get_by_path
    rw [if_neg hp, hw]
    rfl
  · intro fields path n hp hw
    unfold _get_by_path
    rw [if_neg hp, hw]
    rfl

/-- C6 witness: the absent-segment clause applied at a concrete input. -/
theorem C6_witness : _get_by_path [] "x" = "" :=
  C6_get_by_path_spec.2.2.2.2.2.1 [] "x" (by decide) (by rfl)

/-- Head-to-head unfolding of the code-point comparison. -/
theorem strLeChars_cons_iff (a b : Char) (as bs : List Char) :
    strLeChars (a :: as) (b :: bs) = true ↔
      a.toNat < b.toNat ∨ (a.toNat = b.toNat ∧ strLeChars as bs = true) := by
  simp only [strLeChars]
  split_ifs with h1 h2
  · simp [h1]
  · constructor
    · intro h; exact absurd h (by simp)
    · intro h
      rcases h with h | ⟨h, _⟩ <;> omega
  · constructor
    · intro h; right; exact ⟨by omega, h⟩
    · intro h
      rcases h with h | ⟨_, h⟩
      · omega
      · exact h

/-- The code-point order is total. -/
theorem strLeChars_total :
    ∀ l1 l2 : List Char, strLeChars l1 l2 = true ∨ strLeChars l2 l1 = true := by
  intro l1
  induction l1 with
  | nil => intro l2; left; rfl
  | cons a as ih =>
    intro l2
    cases l2 with
    | nil => right; rfl
    | cons b bs =>
      rcases Nat.lt_trichotomy a.toNat b.toNat with h | h | h
      · left; rw [strLeChars_cons_iff]; exact Or.inl h
      · rcases ih bs with h2 | h2
        · left; rw [strLeChars_cons_iff]; exact Or.inr ⟨h, h2⟩
        · right; rw [strLeChars_cons_iff]; exact Or.inr ⟨h.symm, h2⟩
      · right; rw [strLeChars_cons_iff]; exact Or.inl h

/-- The code-point order is transitive. -/
theorem strLeChars_trans :
    ∀ l1 l2 l3 : List Char, strLeChars l1 l2 = true → strLeChars l2 l3 = true →
      strLeChars l1 l3 = true := by
  intro l1
  induction l1 with
  | nil => intro l2 l3 _ _; rfl
  | cons a as ih =>
    intro l2 l3 h1 h2
    cases l2 with
    | nil => exact absurd h1 (by simp [strLeChars])
    | cons b bs =>
      cases l3 with
      | nil => exact absurd h2 (by simp [strLeChars])
      | cons c cs =>
        rw [strLeChars_cons_iff] at h1 h2 ⊢
        rcases h1 with h1 | ⟨h1, h1r⟩
        · rcases h2 with h2 | ⟨h2, _⟩
          · exact Or.inl (by omega)
          · exact Or.inl (by omega)
        · rcases h2 with h2 | ⟨h2, h2r⟩
          · exact Or.inl (by omega)
          · exact Or.inr ⟨by omega, ih bs cs h1r h2r⟩

/-- The code-point order is antisymmetric. -/
theorem strLeChars_antisymm :
    ∀ l1 l2 : List Char, strLeChars l1 l2 = true → strLeChars l2 l1 = true →
      l1 = l2 := by
  intro l1
  induction l1 with
  | nil =>
    intro l2 _ h2
    cases l2 with
    | nil => rfl
    | cons b bs => exact absurd h2 (by simp [strLeChars])
  | cons a as ih =>
    intro l2 h1 h2
    cases l2 with
    | nil => exact absurd h1 (by simp [strLeChars])
    | cons b bs =>
      rw [strLeChars_cons_iff] at h1 h2
      have hab : a.toNat = b.toNat := by
        rcases h1 with h1 | ⟨h1, _⟩ <;> rcases h2 with h2 | ⟨h2, _⟩ <;> omega
      have heq : a = b := Char.ext (UInt32.ext hab)
      have h1r : strLeChars as bs = true := by
        rcases h1 with h1 | ⟨_, h1r⟩
        · omega
        · exact h1r
      have h2r : strLeChars bs as = true := by
        rcases h2 with h2 | ⟨_, h2r⟩
        · omega
        · exact h2r
      rw [heq, ih bs h1r h2r]

/-- Unfolding of the aggregation sort key comparison. -/
theorem qaLe_iff (a b : String × Nat) :
    qaLe a b = true ↔
      b.2 < a.2 ∨ (a.2 = b.2 ∧ strLeChars a.1.data b.1.data = true) := by
  simp only [qaLe]
  split_ifs with h1 h2
  · simp [h1]
  · constructor
    · intro h; exact absurd h (by simp)
    · intro h
      rcases h with h | ⟨h, _⟩ <;> omega
  · constructor
    · intro h; right; exact ⟨by omega, h⟩
    · intro h
      rcases h with h | ⟨_, h⟩
      · omega
      · exact h

/-- Totality of the aggregation order. -/
theorem qaLe_total (a b : String × Nat) : qaLe a b = true ∨ qaLe b a = true := by
  rw [qaLe_iff, qaLe_iff]
  rcases Nat.lt_trichotomy a.2 b.2 with h | h | h
  · right; exact Or.inl h
  · rcases strLeChars_total a.1.data b.1.data with h2 | h2
    · left; exact Or.inr ⟨h.symm ▸ rfl, h2⟩
    · right; exact Or.inr ⟨h ▸ rfl, h2⟩
  · left; exact Or.inl h

/-- Transitivity of the aggregation order. -/
theorem qaLe_trans (a b c : String × Nat) (h1 : qaLe a b = true)
    (h2 : qaLe b c = true) : qaLe a c = true := by
  rw [qaLe_iff] at h1 h2 ⊢
  rcases h1 with h1 | ⟨h1, h1r⟩
  · rcases h2 with h2 | ⟨h2, _⟩
    · exact Or.inl (by omega)
    · exact Or.inl (by omega)
  · rcases h2 with h2 | ⟨h2, h2r⟩
    · exact Or.inl (by omega)
    · exact Or.inr ⟨by omega, strLeChars_trans _ _ _ h1r h2r⟩

/-- Antisymmetry of the aggregation order. -/
theorem qaLe_antisymm (a b : String × Nat) (h1 : qaLe a b = true)
    (h2 : qaLe b a = true) : a = b := by
  rw [qaLe_iff] at h1 h2
  have hcnt : a.2 = b.2 := by
    rcases h1 with h1 | ⟨h1, _⟩ <;> rcases h2 with h2 | ⟨h2, _⟩ <;> omega
  have h1r : strLeChars a.1.data b.1.data = true := by
    rcases h1 with h1 | ⟨_, h1r⟩
    · omega
    · exact h1r
  have h2r : strLeChars b.1.data a.1.data = true := by
    rcases h2 with h2 | ⟨_, h2r⟩
    · omega
    · exact h2r
  have hname : a.1 = b.1 := String.ext (strLeChars_antisymm _ _ h1r h2r)
  exact Prod.ext hname hcnt

/-- Membership through the deduplication accumulator. -/
theorem mem_firstDedupAux (x : String) :
    ∀ (l seen : List String), x ∈ firstDedupAux seen l ↔ (x ∈ l ∧ x ∉ seen) := by
  intro l
  induction l with
  | nil => intro seen; simp [firstDedupAux]
  | cons y ys ih =>
    intro seen
    simp only [firstDedupAux]
    by_cases hy : y ∈ seen
    · rw [if_pos hy, ih]
      constructor
      · intro ⟨hmem, hns⟩; exact ⟨List.mem_cons_of_mem y hmem, hns⟩
      · intro ⟨hmem, hns⟩
        rcases List.mem_cons.mp hmem with rfl | hmem2
        · exact absurd hy hns
        · exact ⟨hmem2, hns⟩
    · rw [if_neg hy]
      by_cases hxy : x = y
      · subst hxy
        simp [hy]
      · constructor
        · intro hmem
          rcases List.mem_cons.mp hmem with h | h
          · exact absurd h hxy
          · have h2 := (ih (y :: seen)).mp h
            exact ⟨List.mem_cons_of_mem y h2.1,
              fun hc => h2.2 (List.mem_cons_of_mem y hc)⟩
        · intro ⟨hmem, hns⟩
          rcases List.mem_cons.mp hmem with h | h
          · exact absurd h hxy
          · refine List.mem_cons_of_mem y ((ih (y :: seen)).mpr ⟨h, fun hc => ?_⟩)
            rcases List.mem_cons.mp hc with h2 | h2
            · exact hxy h2
            · exact hns h2

/-- Membership in the deduplicated list is membership in the original. -/
theorem mem_firstDedup (x : String) (l : List String) :
    x ∈ firstDedup l ↔ x ∈ l := by
  unfold firstDedup
  rw [mem_firstDedupAux]
  simp

/-- The deduplicated list has no duplicates. -/
theorem nodup_firstDedupAux :
    ∀ (l seen : List String), (firstDedupAux seen l).Nodup := by
  intro l
  induction l with
  | nil => intro seen; simp [firstDedupAux]
  | cons y ys ih =>
    intro seen
    simp only [firstDedupAux]
    by_cases hy : y ∈ seen
    · rw [if_pos hy]; exact ih seen
    · rw [if_neg hy]
      refine List.nodup_cons.mpr ⟨fun hc => ?_, ih (y :: seen)⟩
      exact ((mem_firstDedupAux y ys (y :: seen)).mp hc).2 (List.mem_cons_self y seen)

/-- The deduplicated list has no duplicates (outer form). -/
theorem nodup_firstDedup (l : List String) : (firstDedup l).Nodup :=
  nodup_firstDedupAux l []

/-- Deduplication sends permutations to permutations. -/
theorem firstDedup_perm (l1 l2 : List String) (h : l1.Perm l2) :
    (firstDedup l1).Perm (firstDedup l2) := by
  apply List.perm_of_nodup_nodup_toFinset_eq (nodup_firstDedup l1)
    (nodup_firstDedup l2)
  apply Finset.ext
  intro x
  simp only [List.mem_toFinset]
  rw [mem_firstDedup, mem_firstDedup]
  exact ⟨fun hx => h.mem_iff.mp hx, fun hx => h.mem_iff.mpr hx⟩

/-- A one-issue record assigned to `name`. -/
def qaIssue (name : String) : JObj :=
  [("fields", JVal.jobj [("assignee", JVal.jobj [("displayName", JVal.jstr name)])])]

/-- C7: the aggregation is sorted by descending count with ties broken by
ascending name; its entries carry the exact multiplicities of the resolved
names; and the whole output is a function of the multiset of resolved values
(issue lists whose resolved-name lists are permutations of one another yield
identical output).  Concrete conjuncts check the spec example, the tie-break,
and the 未指派 substitution for an empty value. -/
theorem C7_summarize_by_custom_field :
    (∀ (issues : List JObj) (path : String),
      List.Pairwise (fun a b => qaLe a b = true)
        (_summarize_by_custom_field issues path)) ∧
    (∀ (issues : List JObj) (path : String),
      ∀ pr ∈ _summarize_by_custom_field issues path,
        pr.2 = (resolved_qa_names issues path).count pr.1 ∧
        pr.1 ∈ resolved_qa_names issues path) ∧
    (∀ (issues1 issues2 : List JObj) (path1 path2 : String),
      (resolved_qa_names issues1 path1).Perm (resolved_qa_names issues2 path2) →
      _summarize_by_custom_field issues1 path1 =
        _summarize_by_custom_field issues2 path2) ∧
    _summarize_by_custom_field [qaIssue "Alice", qaIssue "Bob", qaIssue "Alice"]
      "assignee.displayName" = [("Alice", 2), ("Bob", 1)] ∧
    _summarize_by_custom_field [qaIssue "Bob", qaIssue "Alice"]
      "assignee.displayName" = [("Alice", 1), ("Bob", 1)] ∧
    _summarize_by_custom_field [[("fields", JVal.jobj [])]] "assignee.displayName"
      = [("未指派", 1)] := by
  haveI htot : IsTotal (String × Nat) (fun a b => qaLe a b = true) := ⟨qaLe_total⟩
  haveI htrans : IsTrans (String × Nat) (fun a b => qaLe a b = true) :=
    ⟨fun a b c => qaLe_trans a b c⟩
  haveI hanti : IsAntisymm (String × Nat) (fun a b => qaLe a b = true) :=
    ⟨fun a b => qaLe_antisymm a b⟩
  refine ⟨?_, ?_, ?_, by decide, by decide, by decide⟩
  · intro issues path
    exact List.sorted_insertionSort _ _
  · intro issues path pr hpr
    unfold _summarize_by_custom_field at hpr
    have hmem := (List.perm_insertionSort (fun a b => qaLe a b = true) _).mem_iff.mp hpr
    obtain ⟨k, hk, rfl⟩ := List.mem_map.mp hmem
    exact ⟨rfl, (mem_firstDedup k _).mp hk⟩
  · intro i1 i2 p1 p2 hperm
    unfold _summarize_by_custom_field
    have hcount : (fun k => (k, (resolved_qa_names i1 p1).count k)) =
        (fun k => (k, (resolved_qa_names i2 p2).count k)) :=
      funext fun k => by rw [hperm.count_eq k]
    rw [hcount]
    have hd := firstDedup_perm _ _ hperm
    have hp := hd.map (fun k => (k, (resolved_qa_names i2 p2).count k))
    have hp2 := ((List.perm_insertionSort (fun a b => qaLe a b = true) _).trans hp).trans
      (List.perm_insertionSort (fun a b => qaLe a b = true) _).symm
    exact List.eq_of_perm_of_sorted hp2 (List.sorted_insertionSort _ _)
      (List.sorted_insertionSort _ _)

/-- C7 witness: two issue lists whose resolved names are permutations of each
other aggregate identically. -/
theorem C7_witness :
    _summarize_by_custom_field [qaIssue "Alice", qaIssue "Bob"]
      "assignee.displayName" =
      _summarize_by_custom_field [qaIssue "Bob", qaIssue "Alice"]
        "assignee.displayName" :=
  C7_summarize_by_custom_field.2.2.1 [qaIssue "Alice", qaIssue "Bob"]
    [qaIssue "Bob", qaIssue "Alice"] "assignee.displayName" "assignee.displayName"
    (List.Perm.swap "Bob" "Alice" [])

/-- C2 witness: the amended iff applied at the counterexample list. -/
theorem C2_witness :
    post_top_paras c2Issues "assignee.displayName" ≠ [] :=
  (C2_top_line_iff_nonempty c2Issues 10 none "assignee.displayName" "" "🔹" "📌"
    false).2.mpr (by unfold c2Issues; simp)

/-- Unfolding of the created-value order. -/
theorem cmpCreatedLe_iff (a b : Option Int) :
    cmpCreatedLe a b = true ↔
      b = none ∨ (∃ x y, a = some x ∧ b = some y ∧ x ≤ y) := by
  cases a with
  | none =>
    cases b with
    | none => simp [cmpCreatedLe]
    | some y => simp [cmpCreatedLe]
  | some x =>
    cases b with
    | none => simp [cmpCreatedLe]
    | some y => simp [cmpCreatedLe]

/-- Totality of the created-value order. -/
theorem cmpCreatedLe_total (a b : Option Int) :
    cmpCreatedLe a b = true ∨ cmpCreatedLe b a = true := by
  cases a with
  | none =>
    cases b with
    | none => left; rfl
    | some y => right; rfl
  | some x =>
    cases b with
    | none => left; rfl
    | some y =>
      rcases Int.le_total x y with h | h
      · left; simpa [cmpCreatedLe] using h
      · right; simpa [cmpCreatedLe] using h

/-- Transitivity of the created-value order. -/
theorem cmpCreatedLe_trans (a b c : Option Int) (h1 : cmpCreatedLe a b = true)
    (h2 : cmpCreatedLe b c = true) : cmpCreatedLe a c = true := by
  cases a with
  | none =>
    cases c with
    | none => rfl
    | some z =>
      cases b with
      | none => exact absurd h2 (by simp [cmpCreatedLe])
      | some y => exact absurd h1 (by simp [cmpCreatedLe])
  | some x =>
    cases c with
    | none => rfl
    | some z =>
      cases b with
      | none => exact absurd h2 (by simp [cmpCreatedLe])
      | some y =>
        simp only [cmpCreatedLe, decide_eq_true_eq] at h1 h2 ⊢
        omega

/-- Unfolding of the card sort-key comparison: the ascending lexicographic
order on the pair (priority rank, created sort value). -/
theorem card_key_le_iff (a b : JObj) :
    card_key_le a b = true ↔
      (card_rank a < card_rank b ∨
        (card_rank a = card_rank b ∧
          cmpCreatedLe (card_created_key (issue_fields a))
            (card_created_key (issue_fields b)) = true)) := by
  simp only [card_key_le]
  split_ifs with h1 h2
  · simp [h1]
  · constructor
    · intro h; exact absurd h (by simp)
    · intro h
      rcases h with h | ⟨h, _⟩ <;> omega
  · constructor
    · intro h; right; exact ⟨by omega, h⟩
    · intro h
      rcases h with h | ⟨_, h⟩
      · omega
      · exact h

/-- Totality of the card sort-key order. -/
theorem card_key_le_total (a b : JObj) :
    card_key_le a b = true ∨ card_key_le b a = true := by
  rw [card_key_le_iff, card_key_le_iff]
  rcases Nat.lt_trichotomy (card_rank a) (card_rank b) with h | h | h
  · left; exact Or.inl h
  · rcases cmpCreatedLe_total (card_created_key (issue_fields a))
      (card_created_key (issue_fields b)) with h2 | h2
    · left; exact Or.inr ⟨h, h2⟩
    · right; exact Or.inr ⟨h.symm, h2⟩
  · right; exact Or.inl h

/-- Transitivity of the card sort-key order. -/
theorem card_key_le_trans (a b c : JObj) (h1 : card_key_le a b = true)
    (h2 : card_key_le b c = true) : card_key_le a c = true := by
  rw [card_key_le_iff] at h1 h2 ⊢
  rcases h1 with h1 | ⟨h1, h1r⟩
  · rcases h2 with h2 | ⟨h2, _⟩
    · exact Or.inl (by omega)
    · exact Or.inl (by omega)
  · rcases h2 with h2 | ⟨h2, h2r⟩
    · exact Or.inl (by omega)
    · exact Or.inr ⟨by omega, cmpCreatedLe_trans _ _ _ h1r h2r⟩

/-- C3: `build_interactive_card` renders the issues in the order of
`card_issues_sorted`, which is a permutation of the input, sorted ascending by
the pair (priority rank, created sort value).  Concrete conjuncts pin the rank
function (exact `P0..P3` tokens case-insensitively and trimmed, the standalone
`P<digit>` token, the English synonyms, 999 otherwise and for absent names)
and the created sort value (UTC epoch, naive timestamps assumed UTC, plus
infinity — `none` — when absent or unparseable, including a lowercase `t`
separator and space-padded day parsing finitely while `%z` offsets with
out-of-range minutes or a magnitude of 24 hours and more are infinite). -/
theorem C3_card_sort_order :
    (∀ issues : List JObj, (card_issues_sorted issues).Perm issues) ∧
    (∀ issues : List JObj,
      List.Pairwise (fun a b => card_key_le a b = true) (card_issues_sorted issues)) ∧
    (∀ (issues : List JObj) (limit : Nat),
      card_shown issues limit = (card_issues_sorted issues).take limit) ∧
    (∀ (issues : List JObj) (title : String) (b : Option String)
        (qa env cnt pfx layout e1 e2 e3 e4 e5 : String) (limit : Nat)
        (jb jql tz : Option String),
      (build_interactive_card issues title b qa env cnt pfx limit jb jql layout
          e1 e2 e3 e4 e5 tz).elements =
        [CardElem.div (cnt ++ " 【待更新数量 Pending update amount】：" ++
          toString issues.length)] ++
        card_top_elems issues qa ++ [CardElem.hr] ++
        ((card_shown issues limit).map (fun issue =>
          card_issue_block issue b qa env pfx layout e1 e2 e3 e4 e5 tz)).flatten ++
        card_tail_elems (card_hidden_count issues limit) jb jql) ∧
    (∀ a b : JObj, card_key_le a b = true ↔
      (card_rank a < card_rank b ∨
        (card_rank a = card_rank b ∧
          cmpCreatedLe (card_created_key (issue_fields a))
            (card_created_key (issue_fields b)) = true))) ∧
    (_priority_rank (some "P0") = 0 ∧ _priority_rank (some " p1 ") = 1 ∧
     _priority_rank (some "P2 - High") = 2 ∧ _priority_rank (some "p3") = 3 ∧
     _priority_rank (some "Highest") = 0 ∧ _priority_rank (some "HIGH") = 1 ∧
     _priority_rank (some "Medium") = 2 ∧ _priority_rank (some "low") = 3 ∧
     _priority_rank (some "Unknown") = 999 ∧ _priority_rank none = 999 ∧
     _priority_rank (some "") = 999 ∧ _priority_rank (some "XP2") = 999) ∧
    (_created_sort_val (some "1970-01-01T00:00:10") = some 10000000 ∧
     _created_sort_val (some "2025-11-08T09:24:46+0800") = some 1762565086000000 ∧
     _created_sort_val (some "2025-11-08T09:24:46") = some 1762593886000000 ∧
     _created_sort_val (some "2025-11-08t09:24:46") = some 1762593886000000 ∧
     _created_sort_val (some "2025-11- 8T09:24:46") = some 1762593886000000 ∧
     _created_sort_val (some "2025-11-08T09:24:46+2359") = some 1762507546000000 ∧
     _created_sort_val (some "2025-11-08T09:24:46+08:00:30") = some 1762565056000000 ∧
     _created_sort_val (some "2025-11-08T09:24:46+9900") = none ∧
     _created_sort_val (some "2025-11-08T09:24:46+0875") = none ∧
     _created_sort_val (some "not-a-date") = none ∧
     _created_sort_val (some "") = none ∧ _created_sort_val none = none) := by
  haveI : IsTotal JObj (fun a b => card_key_le a b = true) := ⟨card_key_le_total⟩
  haveI : IsTrans JObj (fun a b => card_key_le a b = true) :=
    ⟨fun a b c => card_key_le_trans a b c⟩
  refine ⟨?_, ?_, fun issues limit => rfl,
    fun issues title b qa env cnt pfx layout e1 e2 e3 e4 e5 limit jb jql tz => rfl,
    card_key_le_iff, ?_, ?_⟩
  · intro issues
    exact List.perm_insertionSort _ issues
  · intro issues
    exact List.sorted_insertionSort _ issues
  · refine ⟨by decide, by decide, by decide, by decide, by decide, by decide,
      by decide, by decide, by decide, by decide, by decide, by decide⟩
  · refine ⟨by decide, by decide, by decide, by decide, by decide, by decide,
      by decide, by decide, by decide, by decide, by decide, by decide⟩

/-- C4: `_format_created` tries the four patterns in order; on success it
renders `YYYY-MM-DD HH:MM:SS`, converting to the target timezone when it is
supplied and resolvable (naive inputs interpreted as UTC — the spec example
"2025-11-08T09:24:46" with target Asia/Shanghai yields "2025-11-08 17:24:46");
an unresolvable zone skips conversion; when all four patterns fail the input
is returned unchanged; the empty string yields the empty string.  The
strptime embedding matches the interpreter at its edges: the `T` separator is
case-insensitive (`IGNORECASE`), the day may be space-padded, the `Z`
alternative of `%z` stays case-sensitive, `%z` minutes must be `[0-5]\d`, and
an offset of 24 hours or more fails the pattern, so such inputs pass through
unchanged. -/
theorem C4_format_created :
    (∀ tz : Option String, _format_created "" tz = "") ∧
    _format_created "2025-11-08T09:24:46" (some "Asia/Shanghai") =
      "2025-11-08 17:24:46" ∧
    _format_created "2025-11-08T09:24:46.123+0800" none = "2025-11-08 09:24:46" ∧
    _format_created "2025-11-08T09:24:46.123+0800" (some "Asia/Shanghai") =
      "2025-11-08 09:24:46" ∧
    _format_created "2025-11-08T09:24:46" (some "Not/AZone") =
      "2025-11-08 09:24:46" ∧
    _format_created "2025-11-08t09:24:46" (some "Asia/Shanghai") =
      "2025-11-08 17:24:46" ∧
    _format_created "2025-11- 8T09:24:46" none = "2025-11-08 09:24:46" ∧
    _format_created "2025-11-08T09:24:46+2359" (some "Asia/Shanghai") =
      "2025-11-07 17:25:46" ∧
    _format_created "2025-11-08T09:24:46+9900" none =
      "2025-11-08T09:24:46+9900" ∧
    _format_created "2025-11-08T09:24:46+0875" (some "Asia/Shanghai") =
      "2025-11-08T09:24:46+0875" ∧
    _format_created "2025-11-08T09:24:46z" none = "2025-11-08T09:24:46z" ∧
    (∀ (s : String) (tz : Option String),
      strptime1 s = none → strptime2 s = none → strptime3 s = none →
      strptime4 s = none → _format_created s tz = s) := by
  refine ⟨fun tz => rfl, by decide, by decide, by decide, by decide, by decide,
    by decide, by decide, by decide, by decide, by decide, ?_⟩
  intro s tz h1 h2 h3 h4
  unfold _format_created
  by_cases hs : s = ""
  · subst hs; rfl
  · rw [if_neg hs, h1, h2, h3, h4]

/-- C4 witness: the passthrough clause applied at a concrete unparseable
input. -/
theorem C4_witness :
    _format_created "not-a-date" (some "Asia/Shanghai") = "not-a-date" :=
  C4_format_created.2.2.2.2.2.2.2.2.2.2.2 "not-a-date" (some "Asia/Shanghai")
    rfl rfl rfl rfl

/-- C5: the card shows exactly the first `min n show_limit` issues of the
sorted list, `hidden_count = n - shown` (never negative); a positive hidden
count appends a horizontal rule and the tip line naming the count, with the
"View All" hyperlink to `{base}/issues/?jql={url-encoded jql}` exactly when
both parameters are truthy; a zero hidden count appends nothing. -/
theorem C5_card_truncation (issues : List JObj) (title : String)
    (b : Option String) (qa env cnt pfx layout e1 e2 e3 e4 e5 : String)
    (limit : Nat) (jb jql tz : Option String) :
    ((build_interactive_card issues title b qa env cnt pfx limit jb jql layout
        e1 e2 e3 e4 e5 tz).elements =
      [CardElem.div (cnt ++ " 【待更新数量 Pending update amount】：" ++
        toString issues.length)] ++
      card_top_elems issues qa ++ [CardElem.hr] ++
      ((card_shown issues limit).map (fun issue =>
        card_issue_block issue b qa env pfx layout e1 e2 e3 e4 e5 tz)).flatten ++
      card_tail_elems (card_hidden_count issues limit) jb jql) ∧
    (card_shown issues limit).length = min issues.length limit ∧
    card_hidden_count issues limit = issues.length - min issues.length limit ∧
    (card_hidden_count issues limit = 0 →
      card_tail_elems (card_hidden_count issues limit) jb jql = []) ∧
    (0 < card_hidden_count issues limit →
      card_tail_elems (card_hidden_count issues limit) jb jql =
        [CardElem.hr,
         CardElem.div ("ℹ️ " ++ ("Remaining " ++
           toString (card_hidden_count issues limit) ++ " items collapsed" ++
           (if optTruthy jb && optTruthy jql then
             ", [View All](" ++ rstripSlash (optStr jb) ++ "/issues/?jql=" ++
               quote_plus (optStr jql) ++ ")"
           else "")))]) := by
  have hsortlen : (card_issues_sorted issues).length = issues.length :=
    (List.perm_insertionSort _ issues).length_eq
  have hshown : (card_shown issues limit).length = min issues.length limit := by
    unfold card_shown
    rw [List.length_take, hsortlen, Nat.min_comm]
  refine ⟨rfl, hshown, ?_, ?_, ?_⟩
  · unfold card_hidden_count
    rw [hshown, hsortlen]
  · intro h0
    unfold card_tail_elems
    rw [if_neg (by omega)]
  · intro hpos
    unfold card_tail_elems card_view_all
    rw [if_pos hpos]

/-- C5 witness: two issues, a show limit of one, truthy URL parameters. -/
theorem C5_witness :
    card_tail_elems (card_hidden_count [qaIssue "Alice", qaIssue "Bob"] 1)
      (some "https://j.example.com/") (some "a b") =
      [CardElem.hr,
       CardElem.div ("ℹ️ " ++ ("Remaining " ++
         toString (card_hidden_count [qaIssue "Alice", qaIssue "Bob"] 1) ++
         " items collapsed" ++
         (if optTruthy (some "https://j.example.com/") && optTruthy (some "a b") then
           ", [View All](" ++ rstripSlash (optStr (some "https://j.example.com/")) ++
             "/issues/?jql=" ++ quote_plus (optStr (some "a b")) ++ ")"
         else "")))] :=
  (C5_card_truncation [qaIssue "Alice", qaIssue "Bob"] "T" none "q" "" "c" "p"
    "two_columns" "a" "b" "c" "d" "e" 1 (some "https://j.example.com/")
    (some "a b") none).2.2.2.2 (by decide)

/-- The sleeps recorded for a block of attempt numbers. -/
def sleepsFor (backoff : ℚ) (retries : Nat) (attempts : List Nat) : List ℚ :=
  (attempts.filter (fun i => i < retries)).map (fun (i : Nat) => backoff * (i : ℚ))

/-- The retry loop when every remaining attempt fails: it runs all of them,
keeps the last error, and sleeps after each failed attempt that is not the
final one. -/
theorem retry_go_all_fail {ε α : Type} (transport : Nat → Except ε α)
    (retries : Nat) (backoff : ℚ) (errOf : Nat → ε) :
    ∀ (k a : Nat) (lastExc : Option ε) (made : Nat) (sleeps : List ℚ),
      (∀ i, a ≤ i → i < a + k → transport i = Except.error (errOf i)) →
      0 < k →
      retry_go transport retries backoff (List.range' a k) lastExc made sleeps =
        ⟨none, some (errOf (a + k - 1)), made + k,
          sleeps ++ sleepsFor backoff retries (List.range' a k)⟩ := by
  intro k
  induction k with
  | zero =>
    intro a lastExc made sleeps _ h0
    exact absurd h0 (lt_irrefl 0)
  | succ k ih =>
    intro a lastExc made sleeps hfail _
    rw [show List.range' a (k + 1) = a :: List.range' (a + 1) k from rfl]
    simp only [retry_go]
    rw [hfail a (le_refl a) (by omega)]
    dsimp only
    cases k with
    | zero =>
      rw [show List.range' (a + 1) 0 = [] from rfl]
      simp only [retry_go]
      rw [show a + 1 - 1 = a from by omega]
      congr 1
      by_cases ha : a < retries
      · simp [sleepsFor, List.filter_cons, ha]
      · simp [sleepsFor, List.filter_cons, ha]
    | succ k2 =>
      rw [ih (a + 1) (some (errOf a)) (made + 1)
        (if a < retries then sleeps ++ [backoff * (a : ℚ)] else sleeps)
        (fun i h1 h2 => hfail i (by omega) (by omega)) (by omega)]
      rw [show a + 1 + (k2 + 1) - 1 = a + (k2 + 1 + 1) - 1 from by omega]
      congr 1
      · omega
      · rw [show (a :: List.range' (a + 1) (k2 + 1)) =
          [a] ++ List.range' (a + 1) (k2 + 1) from rfl]
        unfold sleepsFor
        rw [List.filter_append, List.map_append]
        by_cases ha : a < retries
        · simp [List.filter_cons, ha]
        · simp [List.filter_cons, ha]

/-- The retry loop when some attempt succeeds: earlier attempts fail and
sleep, the successful attempt returns at once. -/
theorem retry_go_success {ε α : Type} (transport : Nat → Except ε α)
    (retries : Nat) (backoff : ℚ) (errOf : Nat → ε) (v : α) :
    ∀ (j k a : Nat) (lastExc : Option ε) (made : Nat) (sleeps : List ℚ),
      j < k →
      (∀ i, a ≤ i → i < a + j → transport i = Except.error (errOf i)) →
      transport (a + j) = Except.ok v →
      ∃ exc, retry_go transport retries backoff (List.range' a k) lastExc made sleeps =
        ⟨some v, exc, made + j + 1,
          sleeps ++ sleepsFor backoff retries (List.range' a j)⟩ := by
  intro j
  induction j with
  | zero =>
    intro k a lastExc made sleeps hjk _ hok
    cases k with
    | zero => omega
    | succ k2 =>
      refine ⟨lastExc, ?_⟩
      rw [show List.range' a (k2 + 1) = a :: List.range' (a + 1) k2 from rfl]
      simp only [retry_go]
      rw [show a + 0 = a from rfl] at hok
      rw [hok]
      dsimp only
      rw [show List.range' a 0 = [] from rfl]
      simp [sleepsFor]
  | succ j2 ih =>
    intro k a lastExc made sleeps hjk hfail hok
    cases k with
    | zero => omega
    | succ k2 =>
      rw [show List.range' a (k2 + 1) = a :: List.range' (a + 1) k2 from rfl]
      simp only [retry_go]
      rw [hfail a (le_refl a) (by omega)]
      dsimp only
      obtain ⟨exc, hexc⟩ := ih k2 (a + 1) (some (errOf a)) (made + 1)
        (if a < retries then sleeps ++ [backoff * (a : ℚ)] else sleeps) (by omega)
        (fun i h1 h2 => hfail i (by omega) (by omega))
        (by rw [show a + 1 + j2 = a + (j2 + 1) from by omega]; exact hok)
      refine ⟨exc, ?_⟩
      rw [hexc]
      congr 1
      · omega
      · rw [show List.range' a (j2 + 1) = a :: List.range' (a + 1) j2 from rfl,
          show (a :: List.range' (a + 1) j2) =
            [a] ++ List.range' (a + 1) j2 from rfl]
        unfold sleepsFor
        rw [List.filter_append, List.map_append]
        by_cases ha : a < retries
        · simp [List.filter_cons, ha]
        · simp [List.filter_cons, ha]

/-- Every element of `range' 1 j` passes the `< n` filter when `j < n`. -/
theorem filter_range'_all (j n : Nat) (h : j < n) :
    (List.range' 1 j).filter (fun i => i < n) = List.range' 1 j := by
  rw [List.filter_eq_self]
  intro a ha
  rw [List.mem_range'] at ha
  obtain ⟨i, hi, rfl⟩ := ha
  simp only [decide_eq_true_eq]
  omega

/-- Filtering `range' 1 n` by `< n` keeps exactly the first `n - 1` numbers. -/
theorem filter_range'_lt (n : Nat) (h : 0 < n) :
    (List.range' 1 n).filter (fun i => i < n) = List.range' 1 (n - 1) := by
  have hsplit : List.range' 1 n = List.range' 1 (n - 1) ++ [1 + 1 * (n - 1)] := by
    rw [← List.range'_concat]
    rw [show n - 1 + 1 = n from by omega]
  rw [hsplit, List.filter_append, filter_range'_all (n - 1) n (by omega)]
  have hdrop : ([1 + 1 * (n - 1)].filter (fun i => i < n)) = [] := by
    simp only [List.filter_cons, List.filter_nil, decide_eq_true_eq]
    rw [if_neg (by omega)]
  rw [hdrop, List.append_nil]

/-- C8: the retry policy of both clients.  With every attempt failing and a
positive retry budget, the loop makes exactly `retries` attempts, sleeps
`backoff * attempt` seconds after each failed attempt except the last, and
both `LarkClient._post` and the tracker requests re-raise the error of the
final attempt.  With the first success at attempt `m`, the loop stops there:
`m` attempts, sleeps after attempts `1..m-1` only, and the result is
returned. -/
theorem C8_retry_policy :
    (∀ (ε α : Type) (transport : Nat → Except ε α) (default : α) (retries : Nat)
        (backoff : ℚ) (errOf : Nat → ε),
      (∀ i, 1 ≤ i → i ≤ retries → transport i = Except.error (errOf i)) →
      0 < retries →
      (retry_loop transport retries backoff =
        ⟨none, some (errOf retries), retries,
          (List.range' 1 (retries - 1)).map (fun (i : Nat) => backoff * (i : ℚ))⟩ ∧
       lark_post transport retries backoff = RetryOutcome.raised (errOf retries) ∧
       jira_request transport default retries = RetryOutcome.raised (errOf retries))) ∧
    (∀ (ε α : Type) (transport : Nat → Except ε α) (default : α) (retries : Nat)
        (backoff : ℚ) (errOf : Nat → ε) (m : Nat) (v : α),
      1 ≤ m → m ≤ retries →
      (∀ i, 1 ≤ i → i < m → transport i = Except.error (errOf i)) →
      transport m = Except.ok v →
      ((retry_loop transport retries backoff).success = some v ∧
       (retry_loop transport retries backoff).attempts = m ∧
       (retry_loop transport retries backoff).sleeps =
         (List.range' 1 (m - 1)).map (fun (i : Nat) => backoff * (i : ℚ)) ∧
       lark_post transport retries backoff = RetryOutcome.returned v ∧
       jira_request transport default retries = RetryOutcome.returned v)) := by
  have hfailLoop : ∀ (ε α : Type) (transport : Nat → Except ε α) (retries : Nat)
      (backoff : ℚ) (errOf : Nat → ε),
      (∀ i, 1 ≤ i → i ≤ retries → transport i = Except.error (errOf i)) →
      0 < retries →
      retry_loop transport retries backoff =
        ⟨none, some (errOf retries), retries,
          (List.range' 1 (retries - 1)).map (fun (i : Nat) => backoff * (i : ℚ))⟩ := by
    intro ε α transport retries backoff errOf hfail hpos
    unfold retry_loop
    rw [retry_go_all_fail transport retries backoff errOf retries 1 none 0 []
      (fun i h1 h2 => hfail i h1 (by omega)) hpos]
    rw [show 1 + retries - 1 = retries from by omega]
    unfold sleepsFor
    rw [filter_range'_lt retries hpos, List.nil_append, Nat.zero_add]
  have hsuccLoop : ∀ (ε α : Type) (transport : Nat → Except ε α) (retries : Nat)
      (backoff : ℚ) (errOf : Nat → ε) (m : Nat) (v : α),
      1 ≤ m → m ≤ retries →
      (∀ i, 1 ≤ i → i < m → transport i = Except.error (errOf i)) →
      transport m = Except.ok v →
      ∃ exc, retry_loop transport retries backoff =
        ⟨some v, exc, m, (List.range' 1 (m - 1)).map (fun (i : Nat) => backoff * (i : ℚ))⟩ := by
    intro ε α transport retries backoff errOf m v hm1 hmr hfail hok
    unfold retry_loop
    obtain ⟨exc, hexc⟩ := retry_go_success transport retries backoff errOf v
      (m - 1) retries 1 none 0 [] (by omega)
      (fun i h1 h2 => hfail i h1 (by omega))
      (by rw [show 1 + (m - 1) = m from by omega]; exact hok)
    refine ⟨exc, ?_⟩
    rw [hexc]
    unfold sleepsFor
    rw [filter_range'_all (m - 1) retries (by omega), List.nil_append]
    congr 1
    omega
  constructor
  · intro ε α transport default retries backoff errOf hfail hpos
    have hloop := hfailLoop ε α transport retries backoff errOf hfail hpos
    refine ⟨hloop, ?_, ?_⟩
    · unfold lark_post
      rw [hloop]
    · unfold jira_request
      rw [hfailLoop ε α transport retries 1 errOf hfail hpos]
  · intro ε α transport default retries backoff errOf m v hm1 hmr hfail hok
    obtain ⟨exc, hloop⟩ := hsuccLoop ε α transport retries backoff errOf m v hm1 hmr hfail hok
    obtain ⟨exc2, hloop2⟩ := hsuccLoop ε α transport retries 1 errOf m v hm1 hmr hfail hok
    refine ⟨by rw [hloop], by rw [hloop], by rw [hloop], ?_, ?_⟩
    · unfold lark_post
      rw [hloop]
    · unfold jira_request
      rw [hloop2]

/-- C8 witness: a transport that always fails, three retries, unit backoff. -/
theorem C8_witness :
    lark_post (fun _ => (Except.error 7 : Except Nat Unit)) 3 1 =
      RetryOutcome.raised 7 ∧
    jira_request (fun _ => (Except.error 7 : Except Nat (List Nat))) [] 3 =
      RetryOutcome.raised 7 ∧
    retry_loop (fun _ => (Except.error 7 : Except Nat Unit)) 3 1 =
      ⟨none, some 7, 3, (List.range' 1 2).map (fun (i : Nat) => (1 : ℚ) * (i : ℚ))⟩ := by
  have h1 := C8_retry_policy.1 Nat Unit (fun _ => Except.error 7) () 3 1
    (fun _ => 7) (fun i h1 h2 => rfl) (by omega)
  have h2 := C8_retry_policy.1 Nat (List Nat) (fun _ => Except.error 7) [] 3 1
    (fun _ => 7) (fun i h1 h2 => rfl) (by omega)
  exact ⟨h1.2.1, h2.2.2, h1.1⟩



/-- Lookup through the value-rewriting map of the merge. -/
theorem lookup_map_value (new : List (String × String)) (k : String) :
    ∀ old : List (String × String),
      List.lookup k (old.map (fun kv => (kv.1, (List.lookup kv.1 new).getD kv.2))) =
        (List.lookup k old).map (fun v => (List.lookup k new).getD v) := by
  intro old
  induction old with
  | nil => rfl
  | cons kv rest ih =>
    obtain ⟨k0, v0⟩ := kv
    simp only [List.map, List.lookup]
    cases hbe : (k == k0) with
    | true =>
      have hk : k = k0 := by simpa using hbe
      subst hk
      simp
    | false => simpa [hbe] using ih

/-- A key absent from the association keys looks up to nothing. -/
theorem lookup_none_of_not_mem (k : String) :
    ∀ l : List (String × String), k ∉ l.map Prod.fst → List.lookup k l = none := by
  intro l
  induction l with
  | nil => intro _; rfl
  | cons kv rest ih =>
    obtain ⟨k0, v0⟩ := kv
    intro hk
    simp only [List.map, List.mem_cons] at hk
    push_neg at hk
    simp only [List.lookup]
    cases hbe : (k == k0) with
    | true =>
      have : k = k0 := by simpa using hbe
      exact absurd this hk.1
    | false => exact ih (fun hc => hk.2 hc)

/-- A failed lookup means the key is absent from the association keys. -/
theorem not_mem_of_lookup_none (k : String) :
    ∀ l : List (String × String), List.lookup k l = none → k ∉ l.map Prod.fst := by
  intro l
  induction l with
  | nil => intro _; simp
  | cons kv rest ih =>
    obtain ⟨k0, v0⟩ := kv
    intro hl
    simp only [List.lookup] at hl
    cases hbe : (k == k0) with
    | true => rw [hbe] at hl; exact absurd hl (by simp)
    | false =>
      rw [hbe] at hl
      simp only [List.map, List.mem_cons]
      push_neg
      refine ⟨fun hc => ?_, ih hl⟩
      rw [hc] at hbe
      simp at hbe

/-- Lookup through a key-predicate filter. -/
theorem lookup_filter_key (p : String → Bool) (k : String) :
    ∀ l : List (String × String),
      List.lookup k (l.filter (fun kv => p kv.1)) =
        if p k then List.lookup k l else none := by
  intro l
  induction l with
  | nil => cases hp : p k <;> simp [hp]
  | cons kv rest ih =>
    obtain ⟨k0, v0⟩ := kv
    cases hbe : (k == k0) with
    | true =>
      have hk : k = k0 := by simpa using hbe
      subst hk
      cases hp : p k with
      | true => simp [List.filter_cons, hp, List.lookup]
      | false => simp [List.filter_cons, hp, List.lookup, ih]
    | false =>
      cases hp : p k0 with
      | true => simp [List.filter_cons, hp, List.lookup, hbe, ih]
      | false => simp [List.filter_cons, hp, List.lookup, hbe, ih]

/-- C9: the written mention map equals the old map updated by the new one —
every key outside the newly resolved set keeps its old binding, and every
newly resolved key maps to its new identifier, overwriting any previous
value. -/
theorem C9_resolver_merge_spec (old new : List (String × String)) (k : String) :
    (k ∉ new.map Prod.fst →
      List.lookup k (resolver_merge old new) = List.lookup k old) ∧
    (∀ v, List.lookup k new = some v →
      List.lookup k (resolver_merge old new) = some v) := by
  constructor
  · intro hk
    unfold resolver_merge
    rw [List.lookup_append, lookup_map_value,
      lookup_filter_key (fun x => decide (x ∉ old.map Prod.fst)) k]
    have hnone : List.lookup k new = none := lookup_none_of_not_mem k new hk
    rw [hnone]
    cases hold : List.lookup k old with
    | none => simp [hnone]
    | some w => simp
  · intro v hv
    unfold resolver_merge
    rw [List.lookup_append, lookup_map_value,
      lookup_filter_key (fun x => decide (x ∉ old.map Prod.fst)) k]
    cases hold : List.lookup k old with
    | some w => simp [hv]
    | none =>
      have hnm : k ∉ old.map Prod.fst := not_mem_of_lookup_none k old hold
      simp [hnm, hv]

/-- C9 witness: merging overlapping and fresh keys at concrete maps. -/
theorem C9_witness :
    List.lookup "a" (resolver_merge [("a", "1"), ("b", "2")]
      [("b", "9"), ("c", "3")]) = some "1" ∧
    List.lookup "b" (resolver_merge [("a", "1"), ("b", "2")]
      [("b", "9"), ("c", "3")]) = some "9" ∧
    List.lookup "c" (resolver_merge [("a", "1"), ("b", "2")]
      [("b", "9"), ("c", "3")]) = some "3" := by
  refine ⟨?_, ?_, ?_⟩
  · have h := (C9_resolver_merge_spec [("a", "1"), ("b", "2")]
      [("b", "9"), ("c", "3")] "a").1 (by decide)
    exact h.trans (by decide)
  · exact (C9_resolver_merge_spec [("a", "1"), ("b", "2")]
      [("b", "9"), ("c", "3")] "b").2 "9" (by decide)
  · exact (C9_resolver_merge_spec [("a", "1"), ("b", "2")]
      [("b", "9"), ("c", "3")] "c").2 "3" (by decide)

end JiraLark
